import Mathlib

/-!
Verification of the esemese-backend gateway service against its
natural-language specification.  The definitions below are shallow
embeddings of the Rust source under `src/`:

* `src/routes/favourites.rs` — `get_group_images`, `fetch_images_from_group`
* `src/routes/groups.rs` — `fetch_groups_from_pinata`, `fetch_images_from_group`,
  `get_groups_with_thumbnails`
* `src/routes/categories.rs` — `get_files_by_category`, `fetch_files_from_pinata`
* `src/routes/uploads.rs` — `upload_photo`, `upload_to_pinata`, `create_form`

Network I/O is modelled by passing the sequence of pages the upstream
service would serve (an oracle), and each drain function returns, next to
its accumulated items, the list of request URLs it issued, so that the
number and shape of upstream calls is part of the model.
-/

namespace Esemese

/-- Mirrors `models/pinata.rs` `PinataFile` (`keyvalues` is carried as an
association list; `size`/`number_of_files` are `u64` values, represented as
`Nat` since the code never performs arithmetic on them). -/
structure PinataFile where
  id : String
  name : String
  cid : String
  size : Nat
  number_of_files : Nat
  mime_type : String
  group_id : String
  keyvalues : List (String × String)
  created_at : String
deriving Repr, DecidableEq

/-- Mirrors `models/pinata.rs` `PinataGroup`. -/
structure PinataGroup where
  id : String
  name : String
  is_public : Option Bool
  created_at : String
deriving Repr, DecidableEq

/-- One upstream page: mirrors `PinataFilesData` / `PinataGroupData`
(`files` resp. `groups` are both called `items` here, `next_page_token`
keeps its name). -/
structure Page (α : Type) where
  items : List α
  next_page_token : Option String
deriving Repr, DecidableEq

/-- Mirrors `errors/mod.rs` `ApiError`.  A `reqwest::Error` is represented
by whether `is_timeout()` / `is_connect()` hold plus its message. -/
inductive ApiError where
  | Env (msg : String)
  | Request (timeout : Bool) (connect : Bool) (msg : String)
  | Api (msg : String)
  | UrlParse (msg : String)
  | Json (msg : String)
deriving Repr, DecidableEq

/-- The URL built per iteration of the loop of `fetch_images_from_group`
(`favourites.rs` lines 72–81, duplicated in `groups.rs` lines 130–139):
the base already carries `?group=<id>`, and a page token is appended with
a second `"?pageToken="`. -/
def filesUrl (group_id : String) (page_token : Option String) : String :=
  let url := "https://api.pinata.cloud/v3/files/public?group=" ++ group_id
  match page_token with
  | some token => url ++ "?pageToken=" ++ token
  | none => url

/-- The URL built per iteration of the loop of `fetch_groups_from_pinata`
(`groups.rs` lines 67–72): the base has no query, the token is appended
with `"?pageToken="`. -/
def groupsUrl (page_token : Option String) : String :=
  let url := "https://api.pinata.cloud/v3/groups/public"
  match page_token with
  | some token => url ++ "?pageToken=" ++ token
  | none => url

/-- The cursor-following aggregation loop shared (by textual duplication in
the source) by `fetch_images_from_group`, `fetch_groups_from_pinata` and
`fetch_files_from_pinata`.  Each iteration requests `mkUrl tok`, appends the
page's items, then — exactly as the Rust loop does — first checks the
optional cap (`all_files.len() >= limit` → `truncate(limit)` and break) and
only then follows `next_page_token`.  The upstream is the oracle `pages`:
the i-th iteration receives the i-th page.  Returns the accumulated items
and the URLs requested, in order (their count = number of upstream calls).
An empty `pages` oracle means the upstream cannot answer further; the loop
is never in that situation for a well-formed oracle. -/
def drainPages (mkUrl : Option String → String) (limit : Option Nat) :
    List (Page α) → List α → Option String → List α × List String
  | [], acc, _ => (acc, [])
  | p :: rest, acc, tok =>
    let url := mkUrl tok
    let acc2 := acc ++ p.items
    match limit with
    | some l =>
      if l ≤ acc2.length then
        (acc2.take l, [url])
      else
        match p.next_page_token with
        | some t =>
          let r := drainPages mkUrl (some l) rest acc2 (some t)
          (r.1, url :: r.2)
        | none => (acc2, [url])
    | none =>
      match p.next_page_token with
      | some t =>
        let r := drainPages mkUrl none rest acc2 (some t)
        (r.1, url :: r.2)
      | none => (acc2, [url])

/-- `fetch_images_from_group(group_id, limit)` of `favourites.rs` lines
58–128 (same code in `groups.rs` lines 116–186), as a function of the
upstream page oracle. -/
def fetch_images_from_group (group_id : String) (limit : Option Nat)
    (pages : List (Page PinataFile)) : List PinataFile × List String :=
  drainPages (filesUrl group_id) limit pages [] none

/-- `fetch_groups_from_pinata()` of `groups.rs` lines 55–114: the same loop
with no limit parameter. -/
def fetch_groups_from_pinata (pages : List (Page PinataGroup)) :
    List PinataGroup × List String :=
  drainPages groupsUrl none pages [] none

/-- A page oracle is well formed when it is the page sequence an upstream
drain can actually consume: nonempty, every page before the last carries a
`next_page_token`, and the last page carries none. -/
def wellFormedPages : List (Page α) → Bool
  | [] => false
  | [p] => p.next_page_token.isNone
  | p :: q :: rest => p.next_page_token.isSome && wellFormedPages (q :: rest)

/-- The concatenation of the items of a page sequence, in page-and-position
order. -/
def allItems : List (Page α) → List α
  | [] => []
  | p :: rest => p.items ++ allItems rest

theorem allItems_cons (p : Page α) (rest : List (Page α)) :
    allItems (p :: rest) = p.items ++ allItems rest := rfl

/-- One step of the limitless drain, with the page's token resolved. -/
theorem drainPages_none_step_some (mkUrl : Option String → String)
    (p : Page α) (rest : List (Page α)) (acc : List α) (tok : Option String)
    (t : String) (ht : p.next_page_token = some t) :
    drainPages mkUrl none (p :: rest) acc tok =
      ((drainPages mkUrl none rest (acc ++ p.items) (some t)).1,
        mkUrl tok :: (drainPages mkUrl none rest (acc ++ p.items) (some t)).2) := by
  rw [drainPages, ht]

/-- One step of the limitless drain at the final page. -/
theorem drainPages_none_step_none (mkUrl : Option String → String)
    (p : Page α) (rest : List (Page α)) (acc : List α) (tok : Option String)
    (ht : p.next_page_token = none) :
    drainPages mkUrl none (p :: rest) acc tok = (acc ++ p.items, [mkUrl tok]) := by
  rw [drainPages, ht]

/-- With no limit, the drain over a well-formed oracle returns every item in
original order and issues one request per page. -/
theorem drainPages_none_spec (mkUrl : Option String → String) :
    ∀ (pages : List (Page α)) (acc : List α) (tok : Option String),
      wellFormedPages pages = true →
      (drainPages mkUrl none pages acc tok).1 = acc ++ allItems pages ∧
      (drainPages mkUrl none pages acc tok).2.length = pages.length
  | [], _, _, h => by simp [wellFormedPages] at h
  | [p], acc, tok, h => by
    simp only [wellFormedPages, Option.isNone_iff_eq_none] at h
    rw [drainPages_none_step_none mkUrl p [] acc tok h]
    simp [allItems]
  | p :: q :: rest, acc, tok, h => by
    simp only [wellFormedPages, Bool.and_eq_true, Option.isSome_iff_exists] at h
    obtain ⟨⟨t, ht⟩, hwf⟩ := h
    have ih := drainPages_none_spec mkUrl (q :: rest) (acc ++ p.items) (some t) hwf
    rw [drainPages_none_step_some mkUrl p (q :: rest) acc tok t ht]
    refine ⟨?_, ?_⟩
    · rw [ih.1]
      simp [allItems_cons]
    · simp only [List.length_cons]
      rw [ih.2]
      simp

/-- One step of the capped drain: the cap check (`all_files.len() >= limit`
then `truncate(limit)` and break) runs before the token check. -/
theorem drainPages_some_step (mkUrl : Option String → String) (l : Nat)
    (p : Page α) (rest : List (Page α)) (acc : List α) (tok : Option String) :
    drainPages mkUrl (some l) (p :: rest) acc tok =
      if l ≤ (acc ++ p.items).length then
        ((acc ++ p.items).take l, [mkUrl tok])
      else
        match p.next_page_token with
        | some t =>
          ((drainPages mkUrl (some l) rest (acc ++ p.items) (some t)).1,
            mkUrl tok :: (drainPages mkUrl (some l) rest (acc ++ p.items) (some t)).2)
        | none => (acc ++ p.items, [mkUrl tok]) := by
  rw [drainPages]

/-- The capped drain never returns more than the cap. -/
theorem drainPages_some_length_le (mkUrl : Option String → String) (l : Nat) :
    ∀ (pages : List (Page α)) (acc : List α) (tok : Option String),
      acc.length ≤ l →
      (drainPages mkUrl (some l) pages acc tok).1.length ≤ l
  | [], _, _, hacc => hacc
  | p :: rest, acc, tok, hacc => by
    rw [drainPages_some_step]
    by_cases hl : l ≤ (acc ++ p.items).length
    · simp only [hl, if_true]
      rw [List.length_take]
      omega
    · simp only [hl, if_false]
      match hp : p.next_page_token with
      | some t =>
        exact drainPages_some_length_le mkUrl l rest (acc ++ p.items) (some t) (by omega)
      | none =>
        show (acc ++ p.items).length ≤ l
        omega

/-- Whenever the upstream holds at least `l` items, the capped drain returns
exactly the first `l` items in page-and-position order. -/
theorem drainPages_some_take (mkUrl : Option String → String) (l : Nat) :
    ∀ (pages : List (Page α)) (acc : List α) (tok : Option String),
      wellFormedPages pages = true →
      l ≤ (acc ++ allItems pages).length →
      (drainPages mkUrl (some l) pages acc tok).1 = (acc ++ allItems pages).take l
  | [], _, _, h, _ => by simp [wellFormedPages] at h
  | [p], acc, tok, h, hlen => by
    simp only [wellFormedPages, Option.isNone_iff_eq_none] at h
    rw [drainPages_some_step]
    simp only [allItems, List.append_nil] at hlen
    by_cases hl : l ≤ (acc ++ p.items).length
    · rw [if_pos hl]
      simp [allItems]
    · exact absurd hlen hl
  | p :: q :: rest, acc, tok, h, hlen => by
    simp only [wellFormedPages, Bool.and_eq_true, Option.isSome_iff_exists] at h
    obtain ⟨⟨t, ht⟩, hwf⟩ := h
    rw [drainPages_some_step]
    by_cases hl : l ≤ (acc ++ p.items).length
    · rw [if_pos hl]
      simp only [allItems_cons]
      rw [← List.append_assoc, List.take_append_of_le_length hl]
    · rw [if_neg hl]
      simp only [ht]
      have ih := drainPages_some_take mkUrl l (q :: rest) (acc ++ p.items) (some t) hwf
        (by simpa [allItems_cons, List.append_assoc] using hlen)
      rw [ih]
      simp [allItems_cons]

/-- Once the pages fetched so far hold at least `l` items, the capped drain
issues no further request: if the first `j ≥ 1` pages already hold `l`
items, at most `j` requests are made. -/
theorem drainPages_some_calls (mkUrl : Option String → String) (l : Nat) :
    ∀ (pages : List (Page α)) (acc : List α) (tok : Option String) (j : Nat),
      1 ≤ j →
      l ≤ (acc ++ allItems (pages.take j)).length →
      (drainPages mkUrl (some l) pages acc tok).2.length ≤ j
  | [], _, _, j, _, _ => by simp [drainPages]
  | p :: rest, acc, tok, j, hj, hlen => by
    rw [drainPages_some_step]
    by_cases hl : l ≤ (acc ++ p.items).length
    · rw [if_pos hl]
      simpa using hj
    · rw [if_neg hl]
      match hp : p.next_page_token with
      | none => simpa using hj
      | some t =>
        obtain _ | j2 := j
        · omega
        · obtain _ | j3 := j2
          · exfalso
            simp only [List.take_succ_cons, List.take_zero, allItems_cons, allItems,
              List.append_nil] at hlen
            omega
          · have ih := drainPages_some_calls mkUrl l rest (acc ++ p.items) (some t) (j3 + 1)
              (by omega)
              (by
                simp only [List.take_succ_cons, allItems_cons, List.append_assoc] at hlen
                simpa [List.append_assoc] using hlen)
            simpa using Nat.succ_le_succ ih

/-- All URLs a drain issues come from its own URL builder: the drain never
requests anything but `mkUrl tok` for the evolving token. -/
theorem drainPages_urls (mkUrl : Option String → String) (limit : Option Nat) :
    ∀ (pages : List (Page α)) (acc : List α) (tok : Option String),
      ∀ url ∈ (drainPages mkUrl limit pages acc tok).2, ∃ t, url = mkUrl t
  | [], _, _ => by simp [drainPages]
  | p :: rest, acc, tok => by
    intro url hurl
    match limit with
    | some l =>
      rw [drainPages_some_step] at hurl
      by_cases hl : l ≤ (acc ++ p.items).length
      · rw [if_pos hl] at hurl
        simp only [List.mem_singleton] at hurl
        exact ⟨tok, hurl⟩
      · rw [if_neg hl] at hurl
        match hp : p.next_page_token with
        | some t =>
          simp only [hp, List.mem_cons] at hurl
          rcases hurl with h | h
          · exact ⟨tok, h⟩
          · exact drainPages_urls mkUrl (some l) rest (acc ++ p.items) (some t) url h
        | none =>
          simp only [hp, List.mem_singleton] at hurl
          exact ⟨tok, hurl⟩
    | none =>
      match hp : p.next_page_token with
      | some t =>
        rw [drainPages_none_step_some mkUrl p rest acc tok t hp] at hurl
        simp only [List.mem_cons] at hurl
        rcases hurl with h | h
        · exact ⟨tok, h⟩
        · exact drainPages_urls mkUrl none rest (acc ++ p.items) (some t) url h
      | none =>
        rw [drainPages_none_step_none mkUrl p rest acc tok hp] at hurl
        simp only [List.mem_singleton] at hurl
        exact ⟨tok, hurl⟩

/-- Mirrors `models/favourites.rs` `GroupImagesParams`. -/
structure GroupImagesParams where
  group_id : Option String
  limit : Option Nat
deriving Repr, DecidableEq

/-- Mirrors `models/favourites.rs` `GroupImagesResponse`. -/
structure GroupImagesResponse where
  success : Bool
  group_id : String
  images : List PinataFile
  message : Option String
deriving Repr, DecidableEq

/-- `get_group_images` of `favourites.rs` lines 37–56: an absent `group_id`
query parameter is replaced by the hard-coded default id, and the drain for
that id is returned with the id echoed in the response.  The second
component is the list of upstream request URLs issued. -/
def get_group_images (params : GroupImagesParams) (pages : List (Page PinataFile)) :
    GroupImagesResponse × List String :=
  let group_id := params.group_id.getD "876d949f-6532-44af-924c-f164e5ac6b1b"
  let r := fetch_images_from_group group_id params.limit pages
  ({ success := true, group_id := group_id, images := r.1, message := none }, r.2)

/-- Splitting a character sequence at every occurrence of a separator:
the behaviour of Rust's `str::split` with a one-character pattern (an empty
input yields one empty segment). -/
def splitOnChar (c : Char) : List Char → List (List Char)
  | [] => [[]]
  | x :: xs =>
    let r := splitOnChar c xs
    if x = c then [] :: r
    else
      match r with
      | [] => [[x]]
      | y :: ys => (x :: y) :: ys

/-- Surrounding-whitespace removal: the behaviour of Rust's `str::trim`. -/
def trimChars (l : List Char) : List Char :=
  ((l.dropWhile Char.isWhitespace).reverse.dropWhile Char.isWhitespace).reverse

/-- `get_files_by_category` of `categories.rs` lines 19–25: the raw
`categories` query string is split on commas and each segment trimmed;
an absent parameter yields the empty list. -/
def parse_categories : Option String → List String
  | some cats => (splitOnChar ',' cats.data).map (fun s => String.mk (trimChars s))
  | none => []

/-- The metadata filter JSON of `fetch_files_from_pinata`
(`categories.rs` lines 74–90): one category gives an `eq` predicate, more
give an `in` predicate.  Only evaluated for a nonempty category list, as in
the source. -/
def categoryMetadataJson (categories : List String) : String :=
  if categories.length = 1 then
    "\x7b\"category\":\x7b\"value\":\"" ++ categories.headD "" ++ "\",\"op\":\"eq\"\x7d\x7d"
  else
    "\x7b\"category\":\x7b\"value\":[" ++
      String.intercalate "," (categories.map (fun c => "\"" ++ c ++ "\"")) ++
      "],\"op\":\"in\"\x7d\x7d"

/-- The query pairs `fetch_files_from_pinata` appends to its base URL
(`categories.rs` lines 73–104): the metadata filter only when the category
list is nonempty, then the page token when present. -/
def filesQueryPairs (categories : List String) (page_token : Option String) :
    List (String × String) :=
  (if categories.isEmpty then [] else
    [("metadata[keyvalues]", categoryMetadataJson categories)]) ++
  (match page_token with
   | some t => [("pageToken", t)]
   | none => [])

/-- Renders query pairs onto a URL (percent-encoding of the values, done by
`Url::query_pairs_mut`, is elided: no claim depends on it). -/
def renderQuery : List (String × String) → String
  | [] => ""
  | ps => "?" ++ String.intercalate "&" (ps.map (fun p => p.1 ++ "=" ++ p.2))

/-- The URL built per iteration of the loop of `fetch_files_from_pinata`
(`categories.rs` lines 70–106). -/
def categoriesUrl (categories : List String) (page_token : Option String) : String :=
  "https://api.pinata.cloud/v3/files/public" ++
    renderQuery (filesQueryPairs categories page_token)

/-- `fetch_files_from_pinata(categories)` of `categories.rs` lines 54–141:
the limitless drain with the category filter fixed for the whole drain. -/
def fetch_files_from_pinata (categories : List String) (pages : List (Page PinataFile)) :
    List PinataFile × List String :=
  drainPages (categoriesUrl categories) none pages [] none

/-- `get_files_by_category` of `categories.rs` lines 16–51: parse the
categories, drain, then apply the client-side `take(limit)` cap. -/
def get_files_by_category (categories_param : Option String) (limit : Option Nat)
    (pages : List (Page PinataFile)) : List PinataFile × List String :=
  let categories := parse_categories categories_param
  let r := fetch_files_from_pinata categories pages
  ((match limit with
    | some l => r.1.take l
    | none => r.1), r.2)

/-- Number of occurrences of a character in a string. -/
def charCount (c : Char) (s : String) : Nat := s.data.count c

/-- The query part of a URL: everything after the first `?`. -/
def urlQueryString (url : String) : Option String :=
  match splitOnChar '?' url.data with
  | [] => none
  | [_] => none
  | _ :: rest => some (String.mk (List.intercalate ['?'] rest))

/-- The query parameters of a URL as a client would parse them: the query
split on `&`, each pair split at its first `=`. -/
def urlQueryParams (url : String) : List (String × String) :=
  match urlQueryString url with
  | none => []
  | some q =>
    (splitOnChar '&' q.data).map (fun kv =>
      match splitOnChar '=' kv with
      | [] => ("", "")
      | k :: vs => (String.mk k, String.mk (List.intercalate ['='] vs)))

/-- A concrete file for scenarios. -/
def sampleFile (n : Nat) : PinataFile :=
  { id := "file-" ++ toString n
    name := "photo-" ++ toString n
    cid := "cid-" ++ toString n
    size := 100
    number_of_files := 1
    mime_type := "image/jpeg"
    group_id := "g1"
    keyvalues := []
    created_at := "2025-01-01T00:00:00Z" }

/-- A concrete group for scenarios. -/
def sampleGroup (n : Nat) : PinataGroup :=
  { id := "group-" ++ toString n
    name := "collection-" ++ toString n
    is_public := some true
    created_at := "2025-01-01T00:00:00Z" }

/-- The two-page upstream of the spec's `listGroupImages` scenario: page 1
holds 2 items plus cursor `"c2"`, page 2 holds 3 items and no cursor. -/
def scenarioPages : List (Page PinataFile) :=
  [{ items := [sampleFile 1, sampleFile 2], next_page_token := some "c2" },
   { items := [sampleFile 3, sampleFile 4, sampleFile 5], next_page_token := none }]

/-- C1.  A capped group-scoped drain returns at most `limit` items; when
the upstream holds at least `limit` items it returns exactly the first
`limit` in page order; once the first `j` pages reach the cap no further
page is fetched; and the spec's two-page scenario with `limit = 2` returns
exactly page 1's 2 items with exactly 1 upstream call. -/
theorem fetch_images_cap_spec (gid : String) (L : Nat) (pages : List (Page PinataFile)) :
    (fetch_images_from_group gid (some L) pages).1.length ≤ L
    ∧ (wellFormedPages pages = true → L ≤ (allItems pages).length →
        (fetch_images_from_group gid (some L) pages).1 = (allItems pages).take L)
    ∧ (∀ j, 1 ≤ j → L ≤ (allItems (pages.take j)).length →
        (fetch_images_from_group gid (some L) pages).2.length ≤ j)
    ∧ fetch_images_from_group "g1" (some 2) scenarioPages
        = ([sampleFile 1, sampleFile 2], [filesUrl "g1" none]) := by
  refine ⟨?_, ?_, ?_, ?_⟩
  · exact drainPages_some_length_le _ L pages [] none (by simp)
  · intro hwf hlen
    have h := drainPages_some_take (filesUrl gid) L pages [] none hwf (by simpa using hlen)
    simpa [fetch_images_from_group] using h
  · intro j hj hlen
    exact drainPages_some_calls _ L pages [] none j hj (by simpa using hlen)
  · rfl

theorem fetch_images_cap_spec_witness :
    (fetch_images_from_group "g1" (some 2) scenarioPages).1 = (allItems scenarioPages).take 2
    ∧ (fetch_images_from_group "g1" (some 2) scenarioPages).2.length ≤ 1 :=
  ⟨(fetch_images_cap_spec "g1" 2 scenarioPages).2.1 (by decide) (by decide),
   (fetch_images_cap_spec "g1" 2 scenarioPages).2.2.1 1 (by decide) (by decide)⟩

/-- C2.  The limitless drains (group listing and category file listing)
return all `N` upstream items in original page-and-position order and make
exactly `k` upstream calls for a `k`-page upstream. -/
theorem no_limit_drain_spec (gpages : List (Page PinataGroup))
    (fpages : List (Page PinataFile)) (categories : List String) :
    (wellFormedPages gpages = true →
      (fetch_groups_from_pinata gpages).1 = allItems gpages ∧
      (fetch_groups_from_pinata gpages).2.length = gpages.length)
    ∧ (wellFormedPages fpages = true →
      (fetch_files_from_pinata categories fpages).1 = allItems fpages ∧
      (fetch_files_from_pinata categories fpages).2.length = fpages.length) := by
  constructor
  · intro hwf
    have h := drainPages_none_spec groupsUrl gpages [] none hwf
    simpa [fetch_groups_from_pinata] using h
  · intro hwf
    have h := drainPages_none_spec (categoriesUrl categories) fpages [] none hwf
    simpa [fetch_files_from_pinata] using h

theorem no_limit_drain_spec_witness :
    ((fetch_groups_from_pinata [{ items := [sampleGroup 1], next_page_token := none }]).1
        = allItems [{ items := [sampleGroup 1], next_page_token := none }] ∧
      (fetch_groups_from_pinata [{ items := [sampleGroup 1], next_page_token := none }]).2.length
        = 1)
    ∧ ((fetch_files_from_pinata [] scenarioPages).1 = allItems scenarioPages ∧
      (fetch_files_from_pinata [] scenarioPages).2.length = 2) :=
  ⟨(no_limit_drain_spec [{ items := [sampleGroup 1], next_page_token := none }]
      scenarioPages []).1 (by decide),
   (no_limit_drain_spec [{ items := [sampleGroup 1], next_page_token := none }]
      scenarioPages []).2 (by decide)⟩

/-- C5.  Absent categories produce no metadata filter clause; a single
category produces the `eq` predicate; a comma-separated pair produces the
`in` predicate; segments are trimmed of surrounding whitespace. -/
theorem category_filter_spec :
    (∀ tok, ∀ kv ∈ filesQueryPairs (parse_categories none) tok,
      kv.1 ≠ "metadata[keyvalues]")
    ∧ filesQueryPairs (parse_categories (some "cat")) none =
        [("metadata[keyvalues]",
          "\x7b\"category\":\x7b\"value\":\"cat\",\"op\":\"eq\"\x7d\x7d")]
    ∧ filesQueryPairs (parse_categories (some "cat,dog")) none =
        [("metadata[keyvalues]",
          "\x7b\"category\":\x7b\"value\":[\"cat\",\"dog\"],\"op\":\"in\"\x7d\x7d")]
    ∧ parse_categories (some " cat , dog ") = ["cat", "dog"]
    ∧ filesQueryPairs (parse_categories (some " cat , dog ")) none =
        filesQueryPairs (parse_categories (some "cat,dog")) none := by
  refine ⟨?_, by decide, by decide, by decide, by decide⟩
  intro tok kv hkv
  match tok with
  | none => simp [parse_categories, filesQueryPairs] at hkv
  | some t =>
    simp only [parse_categories, filesQueryPairs, List.isEmpty_nil, if_true,
      List.nil_append, List.mem_singleton] at hkv
    subst hkv
    show ("pageToken" : String) ≠ "metadata[keyvalues]"
    decide

theorem category_filter_spec_witness :
    ("pageToken", "x").1 ≠ "metadata[keyvalues]" :=
  category_filter_spec.1 (some "x") ("pageToken", "x")
    (by simp [parse_categories, filesQueryPairs])

/-- C8.  When a page token is present, the group-scoped file URL appends a
second `?pageToken=<token>` to a URL already carrying `?group=<id>`: the
URL holds two `?` characters and a client parsing the query sees a single
parameter `group` whose value contains the page token. -/
theorem page_token_url_spec (gid tok : String) :
    filesUrl gid (some tok) = filesUrl gid none ++ "?pageToken=" ++ tok
    ∧ (charCount '?' gid = 0 → charCount '?' tok = 0 →
        charCount '?' (filesUrl gid (some tok)) = 2)
    ∧ urlQueryParams (filesUrl "g1" (some "c2")) = [("group", "g1?pageToken=c2")] := by
  refine ⟨rfl, ?_, by decide⟩
  intro h1 h2
  show (("https://api.pinata.cloud/v3/files/public?group=" ++ gid ++ "?pageToken=")
      ++ tok).data.count '?' = 2
  simp only [String.data_append, List.count_append]
  unfold charCount at h1 h2
  rw [h1, h2]
  decide

theorem page_token_url_spec_witness :
    charCount '?' (filesUrl "g1" (some "c2")) = 2 :=
  (page_token_url_spec "g1" "c2").2.1 (by decide) (by decide)

/-- C10.  With an absent `group_id` parameter, `get_group_images` does not
fail: it substitutes the hard-coded default group id, echoes it in the
response, and every upstream request it issues targets that group. -/
theorem default_group_id_spec (limit : Option Nat) (pages : List (Page PinataFile)) :
    (get_group_images { group_id := none, limit := limit } pages).1.group_id =
        "876d949f-6532-44af-924c-f164e5ac6b1b"
    ∧ (get_group_images { group_id := none, limit := limit } pages).1.success = true
    ∧ (get_group_images { group_id := none, limit := limit } pages).1.images =
        (fetch_images_from_group "876d949f-6532-44af-924c-f164e5ac6b1b" limit pages).1
    ∧ ∀ url ∈ (get_group_images { group_id := none, limit := limit } pages).2,
        ∃ t, url = filesUrl "876d949f-6532-44af-924c-f164e5ac6b1b" t := by
  refine ⟨rfl, rfl, rfl, ?_⟩
  intro url hurl
  exact drainPages_urls (filesUrl "876d949f-6532-44af-924c-f164e5ac6b1b") limit
    pages [] none url hurl

theorem default_group_id_spec_witness :
    ∃ t, filesUrl "876d949f-6532-44af-924c-f164e5ac6b1b" none =
      filesUrl "876d949f-6532-44af-924c-f164e5ac6b1b" t :=
  (default_group_id_spec (some 1) scenarioPages).2.2.2
    (filesUrl "876d949f-6532-44af-924c-f164e5ac6b1b" none) (by decide)

/-- Mirrors `models/groups.rs` `GroupWithThumbnail`. -/
structure GroupWithThumbnail where
  id : String
  name : String
  is_public : Option Bool
  created_at : String
  thumbnail_image : Option PinataFile
  photo_count : Nat
deriving Repr, DecidableEq

/-- The composition loop of `get_groups_with_thumbnails` (`groups.rs` lines
192–214), as a function of the per-group lookup (`fetch_images_from_group(
&group.id, Some(1))`, which can fail with any `ApiError`): on success the
first file becomes the thumbnail and the observed count the photo count; on
any error the entry is recorded with `thumbnail_image = None`,
`photo_count = 0` and the loop continues. -/
def get_groups_with_thumbnails (lookup : String → Except ApiError (List PinataFile))
    (groups : List PinataGroup) : List GroupWithThumbnail :=
  groups.map (fun group =>
    match lookup group.id with
    | .ok files =>
      { id := group.id
        name := group.name
        is_public := group.is_public
        created_at := group.created_at
        thumbnail_image := files.head?
        photo_count := files.length }
    | .error _ =>
      { id := group.id
        name := group.name
        is_public := group.is_public
        created_at := group.created_at
        thumbnail_image := none
        photo_count := 0 })

/-- C3.  The thumbnail composition returns exactly one entry per input
group, in input order (entry `i` carries group `i`'s id), and a failing
per-group lookup yields `thumbnail_image = none`, `photo_count = 0` for
that entry without aborting the rest or dropping the entry. -/
theorem compose_thumbnails_spec (lookup : String → Except ApiError (List PinataFile))
    (groups : List PinataGroup) :
    (get_groups_with_thumbnails lookup groups).length = groups.length
    ∧ ∀ i (hi : i < groups.length)
        (hr : i < (get_groups_with_thumbnails lookup groups).length),
        ((get_groups_with_thumbnails lookup groups).get ⟨i, hr⟩).id =
          (groups.get ⟨i, hi⟩).id
        ∧ ∀ e, lookup (groups.get ⟨i, hi⟩).id = .error e →
            ((get_groups_with_thumbnails lookup groups).get ⟨i, hr⟩).thumbnail_image =
              none
            ∧ ((get_groups_with_thumbnails lookup groups).get ⟨i, hr⟩).photo_count = 0 := by
  constructor
  · simp [get_groups_with_thumbnails]
  · intro i hi hr
    have hmap : (get_groups_with_thumbnails lookup groups).get ⟨i, hr⟩ =
        (fun group =>
          match lookup group.id with
          | .ok files =>
            { id := group.id, name := group.name, is_public := group.is_public,
              created_at := group.created_at, thumbnail_image := files.head?,
              photo_count := files.length }
          | .error _ =>
            { id := group.id, name := group.name, is_public := group.is_public,
              created_at := group.created_at, thumbnail_image := none,
              photo_count := 0 : GroupWithThumbnail }) (groups.get ⟨i, hi⟩) := by
      simp only [get_groups_with_thumbnails, List.get_eq_getElem, List.getElem_map]
    rw [hmap]
    simp only []
    cases hlook : lookup (groups.get ⟨i, hi⟩).id with
    | ok files =>
      refine ⟨rfl, ?_⟩
      intro e he
      exact absurd he (by simp)
    | error err =>
      exact ⟨rfl, fun e _ => ⟨rfl, rfl⟩⟩

theorem compose_thumbnails_spec_witness :
    ((get_groups_with_thumbnails (fun _ => .error (.Api "boom"))
        [sampleGroup 1, sampleGroup 2]).get ⟨0, by decide⟩).thumbnail_image = none
    ∧ ((get_groups_with_thumbnails (fun _ => .error (.Api "boom"))
        [sampleGroup 1, sampleGroup 2]).get ⟨0, by decide⟩).photo_count = 0 :=
  ((compose_thumbnails_spec (fun _ => .error (.Api "boom"))
      [sampleGroup 1, sampleGroup 2]).2 0 (by decide) (by decide)).2
    (.Api "boom") rfl

/-- Mirrors `models/uploads.rs` `UploadedFileInfo`. -/
structure UploadedFileInfo where
  id : String
  name : String
  cid : String
  group_id : Option String
deriving Repr, DecidableEq

/-- The retry classification of `upload_to_pinata` (`uploads.rs` lines
284–297): only a `reqwest` transport error with `is_timeout()` or
`is_connect()` is retryable. -/
def isRetryableError : ApiError → Bool
  | .Request t c _ => t || c
  | _ => false

/-- The submission loop of `upload_to_pinata` (`uploads.rs` lines 276–304):
`retries` starts at 0 with `max_retries = 3`; a retryable failure bumps
`retries`, sleeps `2^retries * 1000` ms and loops; any other failure or a
success returns at once; when `retries` reaches 3 the last error is
returned.  `fuel` is `max_retries - retries`; `send n` is the outcome of
the submission attempted with `retries = n`.  Returns (result, number of
attempts made, the sleep durations in ms, in order). -/
def uploadAttemptLoop (send : Nat → Except ApiError UploadedFileInfo) :
    Nat → Nat → Option ApiError → Except ApiError UploadedFileInfo × Nat × List Nat
  | 0, _, lastError => (.error (lastError.getD (.Api "Maximum retries exceeded")), 0, [])
  | fuel + 1, retries, _lastError =>
    match send retries with
    | .ok r => (.ok r, 1, [])
    | .error e =>
      if isRetryableError e then
        let next := uploadAttemptLoop send fuel (retries + 1) (some e)
        (next.1, next.2.1 + 1, (2 ^ (retries + 1) * 1000) :: next.2.2)
      else (.error e, 1, [])

/-- `upload_to_pinata`'s retry policy entered with `retries = 0`,
`max_retries = 3`, `last_error = None`. -/
def upload_to_pinata (send : Nat → Except ApiError UploadedFileInfo) :
    Except ApiError UploadedFileInfo × Nat × List Nat :=
  uploadAttemptLoop send 3 0 none

theorem uploadAttemptLoop_attempts_le (send : Nat → Except ApiError UploadedFileInfo) :
    ∀ (fuel retries : Nat) (lastError : Option ApiError),
      (uploadAttemptLoop send fuel retries lastError).2.1 ≤ fuel
  | 0, _, _ => by simp [uploadAttemptLoop]
  | fuel + 1, retries, lastError => by
    rw [uploadAttemptLoop]
    match send retries with
    | .ok r => simp
    | .error e =>
      by_cases hr : isRetryableError e
      · simp only [hr, if_true]
        have ih := uploadAttemptLoop_attempts_le send fuel (retries + 1) (some e)
        simpa using Nat.succ_le_succ ih
      · simp [hr]

/-- C4.  At most 3 submission attempts are ever made; a non-retryable first
failure returns that error at once with no sleep; three consecutive
retryable (timeout/connection) failures return the third error after sleeps
of 2000 ms, 4000 ms and 8000 ms (2 s, 4 s, 8 s) with no fourth attempt; and
a first success returns immediately. -/
theorem upload_retry_spec (send : Nat → Except ApiError UploadedFileInfo) :
    (upload_to_pinata send).2.1 ≤ 3
    ∧ (∀ e, send 0 = .error e → isRetryableError e = false →
        upload_to_pinata send = (.error e, 1, []))
    ∧ (∀ e0 e1 e2,
        send 0 = .error e0 → send 1 = .error e1 → send 2 = .error e2 →
        isRetryableError e0 = true → isRetryableError e1 = true →
        isRetryableError e2 = true →
        upload_to_pinata send = (.error e2, 3, [2000, 4000, 8000]))
    ∧ (∀ r, send 0 = .ok r → upload_to_pinata send = (.ok r, 1, [])) := by
  refine ⟨uploadAttemptLoop_attempts_le send 3 0 none, ?_, ?_, ?_⟩
  · intro e h0 hnr
    simp [upload_to_pinata, uploadAttemptLoop, h0, hnr]
  · intro e0 e1 e2 h0 h1 h2 hr0 hr1 hr2
    simp only [upload_to_pinata, uploadAttemptLoop, h0, h1, h2, hr0, hr1, hr2, if_true]
    norm_num
  · intro r h0
    simp [upload_to_pinata, uploadAttemptLoop, h0]

theorem upload_retry_spec_witness :
    upload_to_pinata (fun _ => .error (.Request true false "operation timed out")) =
      (.error (.Request true false "operation timed out"), 3, [2000, 4000, 8000]) :=
  (upload_retry_spec (fun _ => .error (.Request true false "operation timed out"))).2.2.1
    (.Request true false "operation timed out")
    (.Request true false "operation timed out")
    (.Request true false "operation timed out")
    rfl rfl rfl rfl rfl rfl

/-- Mirrors `models/uploads.rs` `PhotoMetadata` (the JSON field
`shutterSpeed` is deserialized into `shutter_speed`). -/
structure PhotoMetadata where
  title : String
  description : String
  category : String
  camera : String
  lens : String
  iso : String
  aperture : String
  shutter_speed : String
deriving Repr, DecidableEq

/-- The keyvalues map built inside `create_form` (`uploads.rs` lines
242–267), in insertion order: `category` is always inserted, each other
field only when non-empty. -/
def buildKeyvalues (m : PhotoMetadata) : List (String × String) :=
  [("category", m.category)]
    ++ (if m.description = "" then [] else [("description", m.description)])
    ++ (if m.camera = "" then [] else [("camera", m.camera)])
    ++ (if m.lens = "" then [] else [("lens", m.lens)])
    ++ (if m.iso = "" then [] else [("iso", m.iso)])
    ++ (if m.aperture = "" then [] else [("aperture", m.aperture)])
    ++ (if m.shutter_speed = "" then [] else [("shutterSpeed", m.shutter_speed)])

theorem buildKeyvalues_keys (m : PhotoMetadata) :
    (buildKeyvalues m).map Prod.fst =
      ["category"]
        ++ (if m.description = "" then [] else ["description"])
        ++ (if m.camera = "" then [] else ["camera"])
        ++ (if m.lens = "" then [] else ["lens"])
        ++ (if m.iso = "" then [] else ["iso"])
        ++ (if m.aperture = "" then [] else ["aperture"])
        ++ (if m.shutter_speed = "" then [] else ["shutterSpeed"]) := by
  simp only [buildKeyvalues]
  split_ifs <;> rfl

/-- C6.  The keyvalues map always contains the key `category` (with the
metadata's category value, empty or not), and contains each of
`description`, `camera`, `lens`, `iso`, `aperture`, `shutterSpeed` exactly
when the corresponding metadata field is non-empty: empty fields are
omitted, not sent as empty values. -/
theorem keyvalues_fields_spec (m : PhotoMetadata) :
    ("category", m.category) ∈ buildKeyvalues m
    ∧ ("description" ∈ (buildKeyvalues m).map Prod.fst ↔ m.description ≠ "")
    ∧ ("camera" ∈ (buildKeyvalues m).map Prod.fst ↔ m.camera ≠ "")
    ∧ ("lens" ∈ (buildKeyvalues m).map Prod.fst ↔ m.lens ≠ "")
    ∧ ("iso" ∈ (buildKeyvalues m).map Prod.fst ↔ m.iso ≠ "")
    ∧ ("aperture" ∈ (buildKeyvalues m).map Prod.fst ↔ m.aperture ≠ "")
    ∧ ("shutterSpeed" ∈ (buildKeyvalues m).map Prod.fst ↔ m.shutter_speed ≠ "") := by
  refine ⟨?_, ?_, ?_, ?_, ?_, ?_, ?_⟩
  · simp [buildKeyvalues]
  all_goals
    rw [buildKeyvalues_keys]
    split_ifs <;> simp_all

theorem keyvalues_fields_spec_witness :
    let m : PhotoMetadata :=
      { title := "t", description := "", category := "", camera := "Canon R5",
        lens := "", iso := "100", aperture := "", shutter_speed := "" }
    ("category", "") ∈ buildKeyvalues m
    ∧ ("description" ∈ (buildKeyvalues m).map Prod.fst ↔ False)
    ∧ ("camera" ∈ (buildKeyvalues m).map Prod.fst ↔ True) := by
  intro m
  have h := keyvalues_fields_spec m
  refine ⟨h.1, ?_, ?_⟩
  · rw [h.2.1]
    simp [m]
  · rw [h.2.2.1]
    simp [m]

/-- JSON string-character escaping as `serde_json` performs it for the
characters occurring in metadata values (`"` and `\`; control-character
escaping is elided — no claim exercises it). -/
def jsonEscapeChar (c : Char) : List Char :=
  if c = '\\' then ['\\', '\\']
  else if c = '"' then ['\\', '"']
  else [c]

/-- A JSON string literal. -/
def jsonString (s : String) : String :=
  String.mk ('"' :: s.data.foldr (fun c r => jsonEscapeChar c ++ r) ['"'])

/-- `serde_json::to_string` of a string→string map, given the sequence of
entries in the order the map's iterator yields them. -/
def serializeKeyvalues (pairs : List (String × String)) : String :=
  "\x7b" ++
    String.intercalate "," (pairs.map (fun p => jsonString p.1 ++ ":" ++ jsonString p.2)) ++
    "\x7d"

/-- The entries of the keyvalues `HashMap` in a given iteration order: Rust's
`HashMap` yields its entries in an instance-dependent order (each `HashMap`
draws a fresh hash seed), so the order is an oracle here, constrained in the
theorems to be a permutation of the inserted keys. -/
def orderKeyvalues (kv : List (String × String)) (order : List String) :
    List (String × String) :=
  order.filterMap (fun k => (kv.lookup k).map (fun v => (k, v)))

/-- The multipart form built by the `create_form` closure of
`upload_to_pinata` (`uploads.rs` lines 225–274), one field per part:
`network`, the file part (bytes, file name, MIME type), `name`, the
optional `group_id`, and the serialized keyvalues JSON.  `keyOrder` is the
iteration order of the freshly created keyvalues `HashMap` (see
`orderKeyvalues`). -/
structure MultipartForm where
  network : String
  file_bytes : List Nat
  file_name : String
  file_mime : String
  name : String
  group_id : Option String
  keyvalues_json : String
deriving Repr, DecidableEq

def create_form (file_data : List Nat) (filename : String) (metadata : PhotoMetadata)
    (created_group_id : Option String) (keyOrder : List String) : MultipartForm :=
  { network := "public"
    file_bytes := file_data
    file_name := filename
    file_mime := "multipart/form-data"
    name := metadata.title
    group_id := created_group_id
    keyvalues_json := serializeKeyvalues (orderKeyvalues (buildKeyvalues metadata) keyOrder) }

/-- A metadata value with two keyvalues entries (category and a non-empty
description), on which two iteration orders are observable. -/
def cexMetadata : PhotoMetadata :=
  { title := "sunset", description := "golden hour", category := "landscape",
    camera := "", lens := "", iso := "", aperture := "", shutter_speed := "" }

/-- C7 counterexample.  Both `["category", "description"]` and
`["description", "category"]` are iteration orders of the keyvalues map of
`cexMetadata` (permutations of its keys), and the two invocations of
`create_form` on identical inputs under these two orders produce forms
whose serialized keyvalues JSON texts differ — so the rebuilt form is not
always field-for-field identical as text. -/
theorem form_rebuild_not_identical :
    List.Perm ["category", "description"] ((buildKeyvalues cexMetadata).map Prod.fst)
    ∧ List.Perm ["description", "category"] ((buildKeyvalues cexMetadata).map Prod.fst)
    ∧ create_form [7] "a.jpg" cexMetadata none ["category", "description"] ≠
        create_form [7] "a.jpg" cexMetadata none ["description", "category"] := by
  refine ⟨by decide, by decide, by decide⟩

/-- C7 (amended).  Rebuilding the form from the same file payload,
filename, metadata and resolved group id yields identical content in every
field — network, file bytes, file name, MIME type, name, group id — and a
keyvalues JSON serializing the same key-value pairs, though possibly in a
different key order; when the two map iteration orders coincide, the two
forms are identical outright. -/
theorem form_rebuild_spec (file_data : List Nat) (filename : String)
    (metadata : PhotoMetadata) (gid : Option String) (o1 o2 : List String)
    (h1 : List.Perm o1 ((buildKeyvalues metadata).map Prod.fst))
    (h2 : List.Perm o2 ((buildKeyvalues metadata).map Prod.fst)) :
    (create_form file_data filename metadata gid o1).network =
      (create_form file_data filename metadata gid o2).network
    ∧ (create_form file_data filename metadata gid o1).file_bytes =
      (create_form file_data filename metadata gid o2).file_bytes
    ∧ (create_form file_data filename metadata gid o1).file_name =
      (create_form file_data filename metadata gid o2).file_name
    ∧ (create_form file_data filename metadata gid o1).file_mime =
      (create_form file_data filename metadata gid o2).file_mime
    ∧ (create_form file_data filename metadata gid o1).name =
      (create_form file_data filename metadata gid o2).name
    ∧ (create_form file_data filename metadata gid o1).group_id =
      (create_form file_data filename metadata gid o2).group_id
    ∧ List.Perm (orderKeyvalues (buildKeyvalues metadata) o1)
        (orderKeyvalues (buildKeyvalues metadata) o2)
    ∧ (o1 = o2 →
        create_form file_data filename metadata gid o1 =
          create_form file_data filename metadata gid o2) := by
  refine ⟨rfl, rfl, rfl, rfl, rfl, rfl, ?_, ?_⟩
  · exact (h1.trans h2.symm).filterMap _
  · intro h
    rw [h]

theorem form_rebuild_spec_witness :
    List.Perm (orderKeyvalues (buildKeyvalues cexMetadata) ["category", "description"])
      (orderKeyvalues (buildKeyvalues cexMetadata) ["description", "category"]) :=
  (form_rebuild_spec [7] "a.jpg" cexMetadata none ["category", "description"]
    ["description", "category"] (by decide) (by decide)).2.2.2.2.2.2.1

/-- Mirrors `models/uploads.rs` `UploadResponse`. -/
structure UploadResponse where
  success : Bool
  files : List UploadedFileInfo
  group_id : Option String
  message : Option String
deriving Repr, DecidableEq

/-- The group-resolution step at the head of `upload_to_pinata`
(`uploads.rs` lines 202–222), with the upstream group creation modelled as
succeeding and returning fresh ids through the oracle `createGroupIds`
(`callsSoFar` counts the creation calls already made in this request).
Returns the resolved group id for the submission and the number of
group-creation calls this step issued. -/
def upload_group_resolution (createGroupIds : Nat → String) (callsSoFar : Nat)
    (create_new_group : Bool) (group_id group_name : Option String) :
    Except ApiError (Option String) × Nat :=
  if create_new_group then
    match group_name with
    | some _ => (.ok (some (createGroupIds callsSoFar)), 1)
    | none => (.error (.Api "Group name is needed for new group creations"), 0)
  else (.ok group_id, 0)

/-- The per-file loop of `upload_photo` (`uploads.rs` lines 98–122), with
every submission succeeding: each iteration runs the whole of
`upload_to_pinata` — including its group-resolution step — for one file,
and the upstream echoes the submitted group id in the response
(`UploadedFileInfo.group_id`); the id/name/cid of the uploaded file are
irrelevant to the claims and derived from the file id.  After a successful
upload, `created_group_id` is captured from the first result when
`create_new_group` holds and it is still unset.  Returns (the uploaded
file infos or the first error, the captured `created_group_id`, the total
number of group-creation calls). -/
def uploadFilesLoop (createGroupIds : Nat → String) (create_new_group : Bool)
    (group_id group_name : Option String) :
    List String → Nat → Option String →
    Except ApiError (List UploadedFileInfo) × Option String × Nat
  | [], calls, created => (.ok [], created, calls)
  | fid :: rest, calls, created =>
    match upload_group_resolution createGroupIds calls create_new_group group_id group_name with
    | (.error e, n) => (.error e, created, calls + n)
    | (.ok resolved, n) =>
      let info : UploadedFileInfo :=
        { id := fid, name := fid, cid := "cid-" ++ fid, group_id := resolved }
      let created2 := if create_new_group && created.isNone then info.group_id else created
      match uploadFilesLoop createGroupIds create_new_group group_id group_name
          rest (calls + n) created2 with
      | (.ok infos, createdF, callsF) => (.ok (info :: infos), createdF, callsF)
      | (.error e, createdF, callsF) => (.error e, createdF, callsF)

/-- `upload_photo` (`uploads.rs` lines 94–137) after multipart parsing:
run the per-file loop, then report `created_group_id` as the response's
group id when `createNewGroup` was set, the client-sent `groupId`
otherwise.  The second component is the total number of remote
group-creation calls issued. -/
def upload_photo (createGroupIds : Nat → String) (files : List String)
    (create_new_group : Bool) (group_id group_name : Option String) :
    Except ApiError UploadResponse × Nat :=
  match uploadFilesLoop createGroupIds create_new_group group_id group_name files 0 none with
  | (.ok infos, created, calls) =>
    (.ok { success := true
           files := infos
           group_id := if create_new_group then created else group_id
           message := none }, calls)
  | (.error e, _, calls) => (.error e, calls)

theorem uploadFilesLoop_cons_create_none (createGroupIds : Nat → String)
    (gid : Option String) (nm fid : String) (rest : List String) (calls : Nat) :
    uploadFilesLoop createGroupIds true gid (some nm) (fid :: rest) calls none =
      match uploadFilesLoop createGroupIds true gid (some nm) rest (calls + 1)
          (some (createGroupIds calls)) with
      | (.ok infos, createdF, callsF) =>
        (.ok (({ id := fid, name := fid, cid := "cid-" ++ fid,
                 group_id := some (createGroupIds calls) } : UploadedFileInfo) :: infos),
          createdF, callsF)
      | (.error e, createdF, callsF) => (.error e, createdF, callsF) := rfl

theorem uploadFilesLoop_cons_create_some (createGroupIds : Nat → String)
    (gid : Option String) (nm fid : String) (rest : List String) (calls : Nat)
    (c : String) :
    uploadFilesLoop createGroupIds true gid (some nm) (fid :: rest) calls (some c) =
      match uploadFilesLoop createGroupIds true gid (some nm) rest (calls + 1)
          (some c) with
      | (.ok infos, createdF, callsF) =>
        (.ok (({ id := fid, name := fid, cid := "cid-" ++ fid,
                 group_id := some (createGroupIds calls) } : UploadedFileInfo) :: infos),
          createdF, callsF)
      | (.error e, createdF, callsF) => (.error e, createdF, callsF) := rfl

theorem uploadFilesLoop_create_spec (createGroupIds : Nat → String)
    (gid : Option String) (nm : String) :
    ∀ (files : List String) (calls : Nat) (created : Option String),
      ∃ infos,
        uploadFilesLoop createGroupIds true gid (some nm) files calls created =
          (.ok infos,
           (match created with
            | some c => some c
            | none =>
              match files with
              | [] => none
              | _ :: _ => some (createGroupIds calls)),
           calls + files.length)
        ∧ infos.map UploadedFileInfo.group_id =
            (List.range' calls files.length).map (fun i => some (createGroupIds i))
  | [], calls, created => by
    refine ⟨[], ?_, rfl⟩
    cases created <;> rfl
  | fid :: rest, calls, created => by
    cases created with
    | none =>
      obtain ⟨infos, hloop, hmap⟩ :=
        uploadFilesLoop_create_spec createGroupIds gid nm rest (calls + 1)
          (some (createGroupIds calls))
      refine ⟨{ id := fid, name := fid, cid := "cid-" ++ fid,
                group_id := some (createGroupIds calls) } :: infos, ?_, ?_⟩
      · rw [uploadFilesLoop_cons_create_none, hloop]
        simp only [Prod.mk.injEq, List.length_cons]
        exact ⟨trivial, trivial, by omega⟩
      · simp only [List.map_cons, List.length_cons, hmap]
        rw [List.range'_succ]
        simp
    | some c =>
      obtain ⟨infos, hloop, hmap⟩ :=
        uploadFilesLoop_create_spec createGroupIds gid nm rest (calls + 1) (some c)
      refine ⟨{ id := fid, name := fid, cid := "cid-" ++ fid,
                group_id := some (createGroupIds calls) } :: infos, ?_, ?_⟩
      · rw [uploadFilesLoop_cons_create_some, hloop]
        simp only [Prod.mk.injEq, List.length_cons]
        exact ⟨trivial, trivial, by omega⟩
      · simp only [List.map_cons, List.length_cons, hmap]
        rw [List.range'_succ]
        simp

/-- C9.  When one inbound request carries `k ≥ 2` file parts with
`createNewGroup` set and a group name present, the remote group-creation
call is issued once per file — `k` times, each upload landing in its own
freshly created group (distinct oracle indices 0..k-1) — and the
response's `group_id` is the id created for the file processed first; the
other created ids are not reported. -/
theorem multi_file_group_creation_spec (createGroupIds : Nat → String)
    (files : List String) (gid : Option String) (nm : String)
    (hk : 2 ≤ files.length) :
    (upload_photo createGroupIds files true gid (some nm)).2 = files.length
    ∧ ∃ resp,
        (upload_photo createGroupIds files true gid (some nm)).1 = .ok resp
        ∧ resp.group_id = some (createGroupIds 0)
        ∧ resp.files.map UploadedFileInfo.group_id =
            (List.range files.length).map (fun i => some (createGroupIds i)) := by
  cases files with
  | nil => simp at hk
  | cons f1 rest =>
    obtain ⟨infos, hloop, hmap⟩ :=
      uploadFilesLoop_create_spec createGroupIds gid nm (f1 :: rest) 0 none
    have houtcome : upload_photo createGroupIds (f1 :: rest) true gid (some nm) =
        (.ok { success := true, files := infos,
               group_id := some (createGroupIds 0), message := none },
         (f1 :: rest).length) := by
      simp only [upload_photo]
      rw [hloop]
      simp
    refine ⟨by rw [houtcome],
      { success := true, files := infos,
        group_id := some (createGroupIds 0), message := none },
      by rw [houtcome], rfl, ?_⟩
    show infos.map UploadedFileInfo.group_id = _
    rw [hmap, List.range_eq_range']

theorem multi_file_group_creation_spec_witness :
    (upload_photo (fun i => "new-group-" ++ toString i) ["f1", "f2"] true none
        (some "album")).2 = 2
    ∧ ∃ resp,
        (upload_photo (fun i => "new-group-" ++ toString i) ["f1", "f2"] true none
            (some "album")).1 = .ok resp
        ∧ resp.group_id = some "new-group-0"
        ∧ resp.files.map UploadedFileInfo.group_id =
            [some "new-group-0", some "new-group-1"] := by
  have h := multi_file_group_creation_spec (fun i => "new-group-" ++ toString i)
    ["f1", "f2"] none "album" (by decide)
  obtain ⟨hcalls, resp, hok, hgid, hfiles⟩ := h
  exact ⟨hcalls, resp, hok, by simpa using hgid, by simpa using hfiles⟩

end Esemese
